import Mathlib

/-!
Verification development for the `gopomotime` terminal countdown timer
(`src/main.go`).  The program is a Bubble Tea application: a `model` value
is threaded through an `Update` function that receives discrete messages
(key presses, timer ticks, blink ticks) and returns the next model together
with a command telling the runtime which timer message to schedule next.

Shallow embedding conventions:
* `time.Duration` values (int64 nanoseconds in Go) are embedded as `Int`
  nanoseconds.  All durations handled by the program stay far below 2^63,
  so plain `Int` arithmetic coincides with Go's int64 arithmetic on every
  reachable value.
* The Bubble Tea commands actually returned by `Update` are `tea.Quit`,
  `tickCmd()`, `blinkCmd()` and `nil`; they are embedded as the four
  constructors of `Cmd`.
* Key messages are embedded by the string that `msg.String()` returns,
  with Ctrl-C (matched on `msg.Type` before the string switch) as its own
  constructor.
-/

/-- Timer state, from `type model struct` in src/main.go lines 24-30.
`totalTime` and `elapsedTime` are `time.Duration` values in nanoseconds. -/
structure model where
  totalTime : Int
  elapsedTime : Int
  isRunning : Bool
  isPaused : Bool
  blink : Bool
deriving DecidableEq

/-- Messages delivered to `Update`: key presses (by their `msg.String()`
value), Ctrl-C, `tickMsg` and `blinkMsg` (src/main.go lines 32-33, 69-114). -/
inductive Msg where
  | key (s : String)
  | ctrlC
  | tick
  | blink
deriving DecidableEq

/-- Commands returned by `Update`: `tea.Quit`, `tickCmd()`, `blinkCmd()`
or `nil` (src/main.go lines 69-116, 186-197). -/
inductive Cmd where
  | quit
  | tick
  | blink
  | nil
deriving DecidableEq

/-- `tickRate = time.Second` (src/main.go line 18), in nanoseconds. -/
def tickRate : Int := 1000000000

/-- The event handler, translated clause by clause from
`func (m model) Update` in src/main.go lines 69-116. -/
def Update (m : model) (msg : Msg) : model × Cmd :=
  match msg with
  | Msg.ctrlC => (m, Cmd.quit)
  | Msg.key s =>
    if s = "q" then (m, Cmd.quit)
    else if s = "r" then
      ({ m with isRunning := true, isPaused := false, elapsedTime := 0 }, Cmd.tick)
    else if s = "p" then
      if m.isRunning then
        let m' := { m with isPaused := !m.isPaused }
        if m'.isPaused then (m', Cmd.nil) else (m', Cmd.tick)
      else
        ({ m with isRunning := true, isPaused := false }, Cmd.tick)
    else (m, Cmd.nil)
  | Msg.tick =>
    if m.isRunning ∧ m.isPaused = false ∧ m.elapsedTime < m.totalTime then
      let e := m.elapsedTime + tickRate
      let m' :=
        if m.totalTime ≤ e then
          { m with isRunning := false, isPaused := false, elapsedTime := m.totalTime }
        else
          { m with elapsedTime := e }
      if m'.isRunning then (m', Cmd.tick) else (m', Cmd.blink)
    else (m, Cmd.blink)
  | Msg.blink =>
    let m' := { m with blink := !m.blink }
    if m'.isRunning = false ∧ m'.totalTime ≤ m'.elapsedTime then (m', Cmd.blink)
    else (m', Cmd.nil)

/-- The model built in `main` (src/main.go lines 266-272) from the parsed
duration `d`: timer starts immediately, with the finished text visible. -/
def initialModel (d : Int) : model :=
  { totalTime := d, elapsedTime := 0, isRunning := true, isPaused := false, blink := true }

/-- State after processing `n` consecutive `tickMsg` events. -/
def tickN (m : model) : Nat → model
  | 0 => m
  | n + 1 => (Update (tickN m n) Msg.tick).fst

/-- State after processing a sequence of events in order. -/
def runEvents (m : model) (es : List Msg) : model :=
  es.foldl (fun acc e => (Update acc e).fst) m

/-- Sample state: a 2.5-second timer, running, 2 s elapsed. -/
def nearFinishSample : model :=
  { totalTime := 2500000000, elapsedTime := 2000000000, isRunning := true, isPaused := false, blink := true }

/-- Sample state: a 2.5-second timer in the Finished condition. -/
def finishedSample : model :=
  { totalTime := 2500000000, elapsedTime := 2500000000, isRunning := false, isPaused := false, blink := true }

/-- Sample state: a 5-minute timer that is not running. -/
def stoppedSample : model :=
  { totalTime := 300000000000, elapsedTime := 0, isRunning := false, isPaused := false, blink := true }

/-- Sample state: a 5-minute timer, running and unpaused, 5 s elapsed. -/
def runningSample : model :=
  { totalTime := 300000000000, elapsedTime := 5000000000, isRunning := true, isPaused := false, blink := true }

/-- Sample state: a 5-minute timer, running but paused, nothing elapsed. -/
def pausedSample : model :=
  { totalTime := 300000000000, elapsedTime := 0, isRunning := true, isPaused := true, blink := true }

/-- Numeric value of a digit string, most significant digit first, as Go's
`strconv.ParseUint` accumulates it. -/
def digitsValN (l : List Char) : Nat :=
  l.foldl (fun acc c => acc * 10 + (c.toNat - 48)) 0

/-- Go `strings.Split` for a one-character separator, over the character
list of the input: every occurrence of the separator opens a new field,
and the empty input yields one empty field, exactly as in Go. -/
def splitOnChar (sep : Char) : List Char → List (List Char)
  | [] => [[]]
  | c :: rest =>
    if c = sep then [] :: splitOnChar sep rest
    else
      match splitOnChar sep rest with
      | [] => [[c]]
      | h :: t => (c :: h) :: t

/-- Go `strconv.Atoi` (= `strconv.ParseInt(s, 10, 0)`) on a field: an
optional single leading `+` or `-` sign followed by one or more ASCII
digits; anything else is an error.  The int64 range check of `ParseInt` is
omitted here: a field whose value overflows int64 makes Atoi return an
error in Go, and in this embedding yields a value far outside the
`[0,99]`/`[0,59]` bounds checked by `parseDuration`, so `parseDuration`
returns an error either way. -/
def goAtoi (cs : List Char) : Option Int :=
  match cs with
  | [] => Option.none
  | c :: rest =>
    let sign : Int := if c = '-' then -1 else 1
    let digits := if c = '-' ∨ c = '+' then rest else c :: rest
    if digits ≠ [] ∧ digits.all Char.isDigit then
      Option.some (sign * (digitsValN digits : Int))
    else Option.none

/-- `parseDuration` from src/main.go lines 44-61: split on ":", require
exactly two fields, Atoi each, bound minutes by `maxMinutes = 99` and
seconds by `maxSeconds = 59`, and return
`Duration(minutes)*Minute + Duration(seconds)*Second` (nanoseconds).
`Option.none` stands for the error returns. -/
def parseDuration (input : String) : Option Int :=
  match splitOnChar ':' input.toList with
  | [mStr, sStr] =>
    match goAtoi mStr with
    | Option.none => Option.none
    | Option.some minutes =>
      if minutes < 0 ∨ 99 < minutes then Option.none
      else
        match goAtoi sStr with
        | Option.none => Option.none
        | Option.some seconds =>
          if seconds < 0 ∨ 59 < seconds then Option.none
          else Option.some (minutes * 60000000000 + seconds * 1000000000)
  | _ => Option.none

/-- Acceptance predicate written from C3's words: exactly one ":" between
two fields that are nonnegative integers (digit strings) with no extra
characters, minutes in [0,99], seconds in [0,59]. -/
def claimAccepts (input : String) : Bool :=
  match splitOnChar ':' input.toList with
  | [mStr, sStr] =>
    !mStr.isEmpty && mStr.all Char.isDigit &&
      !sStr.isEmpty && sStr.all Char.isDigit &&
      decide (digitsValN mStr ≤ 99) && decide (digitsValN sStr ≤ 59)
  | _ => false

/-- Sign of a field under Go integer syntax: a leading '-' negates. -/
def fieldSign (cs : List Char) : Int :=
  if cs.head? = some '-' then -1 else 1

/-- Digit body of a field under Go integer syntax: an optional single
leading sign character is skipped. -/
def fieldBody (cs : List Char) : List Char :=
  if cs.head? = some '-' ∨ cs.head? = some '+' then cs.tail else cs

/-- Numeric value of a field under Go integer syntax. -/
def fieldVal (cs : List Char) : Int :=
  fieldSign cs * (digitsValN (fieldBody cs) : Int)

/-- Acceptance predicate of the amended C3 for one field: a nonempty digit
string optionally preceded by one '+' or '-' sign, whose signed value lies
in the given bounds. -/
def amendedFieldOK (cs : List Char) (lo hi : Int) : Bool :=
  !(fieldBody cs).isEmpty && (fieldBody cs).all Char.isDigit &&
    decide (lo ≤ fieldVal cs) && decide (fieldVal cs ≤ hi)

/-- Amended C3 acceptance: exactly one ":", minutes field valued in
[0,99], seconds field valued in [0,59], signs permitted. -/
def amendedAccepts (input : String) : Bool :=
  match splitOnChar ':' input.toList with
  | [mStr, sStr] => amendedFieldOK mStr 0 99 && amendedFieldOK sStr 0 59
  | _ => false

/-- Duration (nanoseconds) promised by the amended C3 on accepted input. -/
def amendedValue (input : String) : Int :=
  match splitOnChar ':' input.toList with
  | [mStr, sStr] => fieldVal mStr * 60000000000 + fieldVal sStr * 1000000000
  | _ => 0

/-- Two-digit zero-padded decimal rendering, Go `fmt.Sprintf "%02d"` for
the values 0..99 that occur here. -/
def pad2 (n : Int) : String :=
  if n < 10 then "0" ++ toString n else toString n

/-- The countdown string built by `View` (src/main.go lines 119-127):
remaining time clamped at zero, then
`fmt.Sprintf("%02d:%02d", int(remaining.Minutes()) % 60, int(remaining.Seconds()) % 60)`.
For the durations this program handles (at most 99 min 59 s, far below
2^53 ns) the float64 results of `Minutes()` and `Seconds()` truncate to
exactly the integer quotients by a minute and a second, so the truncations
are embedded as integer division. -/
def viewTimerString (m : model) : String :=
  let remaining := m.totalTime - m.elapsedTime
  let remaining := if remaining < 0 then 0 else remaining
  let minutes := remaining / 60000000000 % 60
  let seconds := remaining / 1000000000 % 60
  pad2 minutes ++ ":" ++ pad2 seconds

/-- The countdown string asked for by C7's words: the remaining time
(clamped at zero) as two-digit whole minutes, ":", and the remaining
seconds within the minute. -/
def specTimerString (m : model) : String :=
  let remaining := m.totalTime - m.elapsedTime
  let remaining := if remaining < 0 then 0 else remaining
  pad2 (remaining / 60000000000) ++ ":" ++ pad2 (remaining / 1000000000 % 60)

/-- The 13x29 donut template of `drawCircle` (src/main.go lines 202-216). -/
def donutTemplate : List String :=
  [ "          *********          ",
    "      *****************      ",
    "    *********************    ",
    "  **********     **********  ",
    " ********           ******** ",
    " ******               ****** ",
    " ******     mm:ss     ****** ",
    " ******               ****** ",
    " *******             ******* ",
    "  **********     **********  ",
    "    *********************    ",
    "      *****************      ",
    "          *********          " ]

/-- Ring cell test: the template holds '*' at column x of row y.  The
template is pure ASCII, so Go's byte-indexed iteration agrees with
character indexing. -/
def ringCell (x y : Nat) : Bool :=
  ((donutTemplate.getD y "").toList.getD x ' ') = '*'

/-- Go's float-to-int conversion on reals: truncation toward zero. -/
noncomputable def realTrunc (r : ℝ) : ℤ :=
  if r < 0 then -⌊-r⌋ else ⌊r⌋

/-- The progress angle computed per cell by `drawCircle` (src/main.go
lines 229-234): `math.Atan2(dy, dx) + math.Pi/2`, wrapped into `[0, 2*pi)`
by adding `2*pi` when negative.  The center is
`(float64(width/2), float64(height/2)) = (14, 6)` (integer division), and
`math.Atan2 dy dx` is the argument of the complex number `dx + dy*i`.
float64 arithmetic is modelled by exact reals. -/
noncomputable def drawAngle (x y : Nat) : ℝ :=
  if Complex.arg ⟨(x : ℝ) - 14, (y : ℝ) - 6⟩ + Real.pi / 2 < 0 then
    Complex.arg ⟨(x : ℝ) - 14, (y : ℝ) - 6⟩ + Real.pi / 2 + 2 * Real.pi
  else
    Complex.arg ⟨(x : ℝ) - 14, (y : ℝ) - 6⟩ + Real.pi / 2

/-- The segment index of a cell (src/main.go line 235):
`int((angle / (2*math.Pi)) * float64(totalSegments))` with
`totalSegments = 120`. -/
noncomputable def drawSegment (x y : Nat) : ℤ :=
  realTrunc (drawAngle x y / (2 * Real.pi) * 120)

/-- The color decision of `drawCircle` (src/main.go line 236): a '*' cell
is rendered in the elapsed (white) color exactly when
`segment < int(progress * float64(totalSegments))`. -/
def drawElapsed (p : ℝ) (x y : Nat) : Prop :=
  drawSegment x y < realTrunc (p * 120)

lemma tick_preserves_invariant (m : model)
    (h0 : 0 ≤ m.elapsedTime) (h1 : m.elapsedTime ≤ m.totalTime) :
    0 ≤ (Update m Msg.tick).fst.elapsedTime ∧
      (Update m Msg.tick).fst.elapsedTime ≤ (Update m Msg.tick).fst.totalTime ∧
      (Update m Msg.tick).fst.totalTime = m.totalTime := by
  rcases m with ⟨t, e, r, p, b⟩
  simp only [Update, tickRate] at *
  split
  · split <;> simp_all <;> omega
  · simp_all

/-- C1: from any initial state with elapsedTime = 0 and 0 ≤ totalTime,
every state reached by a sequence of tick events satisfies
0 ≤ elapsedTime ≤ totalTime (and totalTime itself never changes). -/
theorem C1_tick_invariant (m : model) (h0 : m.elapsedTime = 0)
    (ht : 0 ≤ m.totalTime) (n : Nat) :
    0 ≤ (tickN m n).elapsedTime ∧ (tickN m n).elapsedTime ≤ m.totalTime ∧
      (tickN m n).totalTime = m.totalTime := by
  induction n with
  | zero => simp [tickN, h0, ht]
  | succ k ih =>
    have h := tick_preserves_invariant (tickN m k) ih.1 (ih.2.2 ▸ ih.2.1)
    simp only [tickN]
    exact ⟨h.1, by rw [← ih.2.2]; exact h.2.2 ▸ h.2.1, h.2.2 ▸ ih.2.2⟩

/-- C1 witness: a 5-minute timer, seven ticks. -/
theorem C1_tick_invariant_witness :
    0 ≤ (tickN (initialModel 300000000000) 7).elapsedTime ∧
      (tickN (initialModel 300000000000) 7).elapsedTime ≤ (300000000000 : Int) ∧
      (tickN (initialModel 300000000000) 7).totalTime = (300000000000 : Int) :=
  C1_tick_invariant (initialModel 300000000000) rfl (by decide) 7

/-- C2: (a) from a running, unpaused state whose next tick would push
elapsedTime past totalTime, that tick clamps elapsedTime to exactly
totalTime and clears isRunning in the same Update call; (b) once the
Finished condition (elapsedTime = totalTime, isRunning = false) holds, a
tick leaves the whole state unchanged, and hence so does every further
sequence of ticks. -/
theorem C2_finish_clamp (m : model) :
    (m.isRunning = true → m.isPaused = false → m.elapsedTime < m.totalTime →
      m.totalTime < m.elapsedTime + tickRate →
      (Update m Msg.tick).fst.elapsedTime = m.totalTime ∧
        (Update m Msg.tick).fst.isRunning = false) ∧
    (m.elapsedTime = m.totalTime → m.isRunning = false →
      (Update m Msg.tick).fst = m ∧ ∀ n, tickN m n = m) := by
  rcases m with ⟨t, e, r, p, b⟩
  constructor
  · intro hr hp hlt hpush
    simp only at hr hp
    subst hr; subst hp
    simp only [Update, tickRate] at hpush ⊢
    split
    · split
      · simp
      · next hnot => exact absurd (by omega) hnot
    · next hguard => exact absurd ⟨trivial, trivial, hlt⟩ hguard
  · intro he hr
    simp only at he hr
    subst hr
    have hstep : (Update (model.mk t e false p b) Msg.tick).fst = model.mk t e false p b := by
      simp [Update]
    refine ⟨hstep, ?_⟩
    intro n
    induction n with
    | zero => rfl
    | succ k ih => simp only [tickN, ih, hstep]

/-- C2 witness: a 2.5-second timer at 2 s elapsed finishes on the next
tick; a finished 2.5-second timer ignores ticks. -/
theorem C2_finish_clamp_witness :
    ((Update nearFinishSample Msg.tick).fst.elapsedTime = (2500000000 : Int) ∧
      (Update nearFinishSample Msg.tick).fst.isRunning = false) ∧
    ((Update finishedSample Msg.tick).fst = finishedSample ∧
      ∀ n, tickN finishedSample n = finishedSample) :=
  ⟨(C2_finish_clamp nearFinishSample).1 rfl rfl (by decide) (by decide),
   (C2_finish_clamp finishedSample).2 rfl rfl⟩

/-- C4: the reset key, from any state whatsoever, zeroes elapsedTime, sets
isRunning, clears isPaused, and returns the tick-scheduling command, so the
countdown restarts cleanly. -/
theorem C4_reset_restarts (m : model) :
    Update m (Msg.key "r") =
      ({ m with isRunning := true, isPaused := false, elapsedTime := 0 }, Cmd.tick) := by
  simp [Update]

/-- C5 counterexample: from a non-running state (isRunning = false, as the
Finished condition leaves it), two pause-key presses do not restore the
original running/paused configuration: the first press starts the timer and
the second pauses it. -/
theorem C5_counterexample :
    (Update (Update stoppedSample (Msg.key "p")).fst (Msg.key "p")).fst.isRunning = true ∧
    (Update (Update stoppedSample (Msg.key "p")).fst (Msg.key "p")).fst.isPaused = true ∧
    stoppedSample.isRunning = false ∧ stoppedSample.isPaused = false := by
  decide

/-- C5 amended: for every state with isRunning = true, two consecutive
pause-key presses restore the state exactly (the second press undoes the
first, all other fields untouched); from a non-running state the pair of
presses instead leaves the timer started and paused. -/
theorem C5_amended_double_pause (m : model) (h : m.isRunning = true) :
    (Update (Update m (Msg.key "p")).fst (Msg.key "p")).fst = m := by
  rcases m with ⟨t, e, r, p, b⟩
  simp only at h
  subst h
  cases p <;> rfl

/-- C5 witness: a running, unpaused 5-minute timer at 5 s elapsed. -/
theorem C5_amended_double_pause_witness :
    (Update (Update runningSample (Msg.key "p")).fst (Msg.key "p")).fst = runningSample :=
  C5_amended_double_pause runningSample rfl

lemma update_preserves_terminal (m : model) (e : Msg) (he : e ≠ Msg.key "p")
    (ht : 0 < m.totalTime)
    (h : m.elapsedTime = m.totalTime → m.isRunning = false) :
    0 < (Update m e).fst.totalTime ∧
      ((Update m e).fst.elapsedTime = (Update m e).fst.totalTime →
        (Update m e).fst.isRunning = false) := by
  rcases m with ⟨t, eT, r, p, b⟩
  simp only at ht h
  cases e with
  | ctrlC => exact ⟨ht, h⟩
  | tick =>
    simp only [Update, tickRate]
    split
    · next hg =>
      obtain ⟨hr, hp, hlt⟩ := hg
      have hr' : r = true := hr
      subst hr'
      split
      · next hc => exact ⟨ht, fun _ => rfl⟩
      · next hc =>
        refine ⟨ht, fun habs => ?_⟩
        simp at habs
        omega
    · exact ⟨ht, h⟩
  | blink =>
    simp only [Update]
    split <;> exact ⟨ht, h⟩
  | key s =>
    simp only [Update]
    split
    · exact ⟨ht, h⟩
    · split
      · refine ⟨ht, fun habs => ?_⟩
        simp at habs
        omega
      · split
        · next hps => exact absurd (by rw [hps]) he
        · exact ⟨ht, h⟩

lemma runEvents_preserves_terminal (es : List Msg) :
    ∀ m : model, (∀ e ∈ es, e ≠ Msg.key "p") → 0 < m.totalTime →
      (m.elapsedTime = m.totalTime → m.isRunning = false) →
      0 < (runEvents m es).totalTime ∧
        ((runEvents m es).elapsedTime = (runEvents m es).totalTime →
          (runEvents m es).isRunning = false) := by
  induction es with
  | nil => intro m _ ht h; exact ⟨ht, h⟩
  | cons e rest ih =>
    intro m hes ht h
    have h1 := update_preserves_terminal m e (hes e (by simp)) ht h
    simpa [runEvents, List.foldl] using
      ih (Update m e).fst (fun x hx => hes x (by simp [hx])) h1.1 h1.2

/-- C6 counterexample: with totalTime of one second (the startup state
for the argument string "00:01"), the reachable event sequence
tick-then-pause-key ends in a state with elapsedTime = totalTime and
isRunning = true: the pause key pressed on a finished timer restarts the
running flag without moving elapsedTime, so the claimed invariant fails. -/
theorem C6_counterexample :
    parseDuration "00:01" = Option.some 1000000000 ∧
      (runEvents (initialModel 1000000000) [Msg.tick, Msg.key "p"]).elapsedTime =
        (runEvents (initialModel 1000000000) [Msg.tick, Msg.key "p"]).totalTime ∧
      (runEvents (initialModel 1000000000) [Msg.tick, Msg.key "p"]).isRunning = true := by
  refine ⟨?_, ?_, ?_⟩ <;> decide

/-- C6 amended: for every startup duration d > 0 and every event sequence
that never contains the pause key, the reached state satisfies
elapsedTime = totalTime implies isRunning = false.  (The pause key pressed
in a Finished state, and the degenerate startup with totalTime = 0, are
the violations the counterexample exhibits.) -/
theorem C6_amended_terminal_stopped (d : Int) (hd : 0 < d) (es : List Msg)
    (hes : ∀ e ∈ es, e ≠ Msg.key "p") :
    (runEvents (initialModel d) es).elapsedTime =
        (runEvents (initialModel d) es).totalTime →
      (runEvents (initialModel d) es).isRunning = false := by
  refine (runEvents_preserves_terminal es (initialModel d) hes hd ?_).2
  intro h0
  exact absurd h0.symm (by simpa [initialModel] using hd.ne')

/-- C6 witness: a 1-second timer reaches the total after one tick and is
indeed stopped there. -/
theorem C6_amended_terminal_stopped_witness :
    (runEvents (initialModel 1000000000) [Msg.tick]).isRunning = false :=
  C6_amended_terminal_stopped 1000000000 (by decide) [Msg.tick] (by decide) (by decide)

/-- C9 counterexample: a paused, far-from-finished state: its tick event
returns the blink-scheduling command even though the state is not
Finished (isRunning is still true and elapsedTime is below totalTime), so
blink events are also scheduled from non-Finished states. -/
theorem C9_counterexample :
    (Update pausedSample Msg.tick).snd = Cmd.blink ∧
      pausedSample.isRunning = true ∧
      pausedSample.elapsedTime ≠ pausedSample.totalTime := by
  refine ⟨?_, ?_, ?_⟩ <;> decide

/-- C9 amended: a blink event always flips blinkPhase regardless of run
state, and the blink handler reschedules a blink event exactly in the
Finished condition; but the tick handler, too, returns the blink command
whenever it does not continue a running countdown (paused, stopped, or
finished states included), while key handlers never schedule blink. -/
theorem C9_amended_blink_schedule (m : model) :
    ((Update m Msg.blink).fst.blink = !m.blink) ∧
    ((Update m Msg.blink).snd = Cmd.blink ↔
      (m.isRunning = false ∧ m.totalTime ≤ m.elapsedTime)) ∧
    ((Update m Msg.tick).snd = Cmd.tick ↔
      (m.isRunning = true ∧ m.isPaused = false ∧
        m.elapsedTime + tickRate < m.totalTime)) ∧
    ((Update m Msg.tick).snd = Cmd.blink ↔
      ¬(m.isRunning = true ∧ m.isPaused = false ∧
        m.elapsedTime + tickRate < m.totalTime)) ∧
    (∀ s, (Update m (Msg.key s)).snd ≠ Cmd.blink) ∧
    ((Update m Msg.ctrlC).snd ≠ Cmd.blink) := by
  rcases m with ⟨t, e, r, p, b⟩
  refine ⟨?_, ?_, ?_, ?_, ?_, by simp [Update]⟩
  · simp only [Update]
    split <;> rfl
  · simp only [Update]
    split
    · next hg => exact iff_of_true rfl (by simpa using hg)
    · next hg => exact iff_of_false (by simp) (by simpa using hg)
  · simp only [Update, tickRate]
    split
    · next hg =>
      obtain ⟨hr, hp, hlt⟩ := hg
      have hr' : r = true := hr
      subst hr'
      split
      · next hc =>
        refine iff_of_false (by simp) ?_
        rintro ⟨-, -, hlt'⟩
        omega
      · next hc =>
        exact iff_of_true (by simp) ⟨rfl, hp, by omega⟩
    · next hg =>
      refine iff_of_false (by simp) ?_
      rintro ⟨hr, hp, hlt⟩
      exact hg ⟨hr, hp, by omega⟩
  · simp only [Update, tickRate]
    split
    · next hg =>
      obtain ⟨hr, hp, hlt⟩ := hg
      have hr' : r = true := hr
      subst hr'
      split
      · next hc =>
        refine iff_of_true (by simp) ?_
        rintro ⟨-, -, hlt'⟩
        omega
      · next hc =>
        refine iff_of_false (by simp) ?_
        intro habs
        exact absurd ⟨rfl, hp, by omega⟩ habs
    · next hg =>
      refine iff_of_true (by simp) ?_
      rintro ⟨hr, hp, hlt⟩
      exact hg ⟨hr, hp, by omega⟩
  · intro s
    simp only [Update]
    split
    · simp
    · split
      · simp
      · split
        · split
          · split <;> simp
          · simp
        · simp

/-- C9 witness: the blink flip and the tick-command characterization at a
concrete running state. -/
theorem C9_amended_blink_schedule_witness :
    (Update runningSample Msg.blink).fst.blink = !runningSample.blink ∧
      ((Update runningSample Msg.tick).snd = Cmd.tick ↔
        (runningSample.isRunning = true ∧ runningSample.isPaused = false ∧
          runningSample.elapsedTime + tickRate < runningSample.totalTime)) :=
  ⟨(C9_amended_blink_schedule runningSample).1,
   (C9_amended_blink_schedule runningSample).2.2.1⟩

lemma update_preserves_stuck (m : model) (e : Msg) (he : e ≠ Msg.key "r")
    (h : m.elapsedTime = m.totalTime) :
    (Update m e).fst.elapsedTime = m.elapsedTime ∧
      (Update m e).fst.totalTime = m.totalTime := by
  rcases m with ⟨t, eT, r, p, b⟩
  simp only at h
  cases e with
  | ctrlC => exact ⟨rfl, rfl⟩
  | tick =>
    simp only [Update, tickRate]
    split
    · next hg => exact absurd hg.2.2 (by omega)
    · exact ⟨rfl, rfl⟩
  | blink =>
    simp only [Update]
    split <;> exact ⟨rfl, rfl⟩
  | key s =>
    simp only [Update]
    split
    · exact ⟨rfl, rfl⟩
    · split
      · next hr => exact absurd (by rw [hr]) he
      · split
        · split
          · split <;> exact ⟨rfl, rfl⟩
          · exact ⟨rfl, rfl⟩
        · exact ⟨rfl, rfl⟩

lemma runEvents_preserves_stuck (es : List Msg) :
    ∀ m : model, (∀ e ∈ es, e ≠ Msg.key "r") → m.elapsedTime = m.totalTime →
      (runEvents m es).elapsedTime = m.elapsedTime := by
  induction es with
  | nil => intro m _ _; rfl
  | cons e rest ih =>
    intro m hes h
    have h1 := update_preserves_stuck m e (hes e (by simp)) h
    have h2 := ih (Update m e).fst (fun x hx => hes x (by simp [hx]))
      (by rw [h1.1, h1.2, h])
    simpa [runEvents, List.foldl, h1.1] using h2

/-- C10: pressing the pause key in a Finished state (isRunning = false,
elapsedTime = totalTime, totalTime > 0) yields isRunning = true,
isPaused = false with elapsedTime still equal to totalTime; from there
every sequence of ticks leaves the state unchanged, and no sequence of
events avoiding the reset key ever moves elapsedTime, so only a reset
returns the timer to normal operation. -/
theorem C10_pause_on_finished (m : model) (hr : m.isRunning = false)
    (he : m.elapsedTime = m.totalTime) (ht : 0 < m.totalTime) :
    ((Update m (Msg.key "p")).fst.isRunning = true ∧
      (Update m (Msg.key "p")).fst.isPaused = false ∧
      (Update m (Msg.key "p")).fst.elapsedTime = m.totalTime) ∧
    (∀ n, tickN (Update m (Msg.key "p")).fst n = (Update m (Msg.key "p")).fst) ∧
    (∀ es, (∀ e' ∈ es, e' ≠ Msg.key "r") →
      (runEvents (Update m (Msg.key "p")).fst es).elapsedTime = m.totalTime) := by
  rcases m with ⟨t, eT, r, p, b⟩
  simp only at hr he ht
  subst hr
  subst he
  have hm1 : (Update (model.mk eT eT false p b) (Msg.key "p")).fst =
      model.mk eT eT true false b := by
    simp [Update]
  refine ⟨by rw [hm1]; exact ⟨rfl, rfl, rfl⟩, ?_, ?_⟩
  · intro n
    rw [hm1]
    have hstep : (Update (model.mk eT eT true false b) Msg.tick).fst =
        model.mk eT eT true false b := by
      simp only [Update, tickRate]
      split
      · next hg => exact absurd hg.2.2 (by omega)
      · rfl
    induction n with
    | zero => rfl
    | succ k ih => simp only [tickN, ih, hstep]
  · intro es hes
    rw [hm1]
    exact runEvents_preserves_stuck es (model.mk eT eT true false b) hes rfl

/-- C10 witness: a finished 2.5-second timer, three ticks and a
tick-then-pause tail after the pause key. -/
theorem C10_pause_on_finished_witness :
    ((Update finishedSample (Msg.key "p")).fst.isRunning = true ∧
      (Update finishedSample (Msg.key "p")).fst.isPaused = false ∧
      (Update finishedSample (Msg.key "p")).fst.elapsedTime = (2500000000 : Int)) ∧
    tickN (Update finishedSample (Msg.key "p")).fst 3 =
      (Update finishedSample (Msg.key "p")).fst ∧
    (runEvents (Update finishedSample (Msg.key "p")).fst
        [Msg.tick, Msg.key "p"]).elapsedTime = (2500000000 : Int) := by
  have h := C10_pause_on_finished finishedSample rfl rfl (by decide)
  exact ⟨h.1, h.2.1 3, h.2.2 [Msg.tick, Msg.key "p"] (by decide)⟩

lemma goAtoi_eq (cs : List Char) :
    goAtoi cs =
      if !(fieldBody cs).isEmpty && (fieldBody cs).all Char.isDigit then
        Option.some (fieldVal cs)
      else Option.none := by
  cases cs with
  | nil => simp [goAtoi, fieldBody, fieldVal, fieldSign]
  | cons c rest =>
    by_cases hm : c = '-'
    · subst hm
      simp [goAtoi, fieldBody, fieldVal, fieldSign]
    · by_cases hp : c = '+'
      · subst hp
        simp [goAtoi, fieldBody, fieldVal, fieldSign]
      · simp [goAtoi, fieldBody, fieldVal, fieldSign, hm, hp]

lemma parseDuration_eq_amended (s : String) :
    parseDuration s =
      if amendedAccepts s then Option.some (amendedValue s) else Option.none := by
  unfold parseDuration amendedAccepts amendedValue
  cases hsplit : splitOnChar ':' s.toList with
  | nil => rfl
  | cons a t =>
    cases t with
    | nil => rfl
    | cons b t2 =>
      cases t2 with
      | cons c t3 => rfl
      | nil =>
        dsimp only
        rw [goAtoi_eq a, goAtoi_eq b]
        unfold amendedFieldOK
        by_cases hA : (!(fieldBody a).isEmpty && (fieldBody a).all Char.isDigit) = true
        · rw [if_pos hA]
          dsimp only
          by_cases hAr : fieldVal a < 0 ∨ 99 < fieldVal a
          · rw [if_pos hAr]
            split
            · next hc =>
              exfalso
              simp only [Bool.and_eq_true, decide_eq_true_eq] at hc
              omega
            · rfl
          · rw [if_neg hAr]
            by_cases hB : (!(fieldBody b).isEmpty && (fieldBody b).all Char.isDigit) = true
            · rw [if_pos hB]
              dsimp only
              by_cases hBr : fieldVal b < 0 ∨ 59 < fieldVal b
              · rw [if_pos hBr]
                split
                · next hc =>
                  exfalso
                  simp only [Bool.and_eq_true, decide_eq_true_eq] at hc
                  omega
                · rfl
              · rw [if_neg hBr]
                split
                · rfl
                · next hc =>
                  exfalso
                  apply hc
                  simp only [Bool.and_eq_true, decide_eq_true_eq]
                  simp only [Bool.and_eq_true] at hA hB
                  exact ⟨⟨⟨hA, by omega⟩, by omega⟩, ⟨⟨hB, by omega⟩, by omega⟩⟩
            · rw [if_neg hB]
              dsimp only
              split
              · next hc =>
                exfalso
                simp only [Bool.and_eq_true, decide_eq_true_eq] at hc
                exact hB (by rw [Bool.and_eq_true]; exact ⟨hc.2.1.1.1, hc.2.1.1.2⟩)
              · rfl
        · rw [if_neg hA]
          dsimp only
          split
          · next hc =>
            exfalso
            simp only [Bool.and_eq_true, decide_eq_true_eq] at hc
            exact hA (by rw [Bool.and_eq_true]; exact ⟨hc.1.1.1.1, hc.1.1.1.2⟩)
          · rfl

/-- C3 counterexample: Go's strconv.Atoi accepts an optional leading sign,
so parseDuration accepts "+5:00" and returns 300 s even though the minutes
field "+5" is not a plain nonnegative digit string; the claimed
characterization of accepted inputs rejects it. -/
theorem C3_counterexample :
    parseDuration "+5:00" = Option.some 300000000000 ∧
      claimAccepts "+5:00" = false := by
  refine ⟨?_, ?_⟩ <;> decide

/-- C3 amended: parseDuration returns minutes*60 + seconds seconds exactly
when the input has exactly one ":" between two fields, each a nonempty
digit string optionally preceded by a single "+" or "-" sign, whose signed
minutes value is in [0,99] and signed seconds value is in [0,59]; on any
other input it errors.  In particular "05:00" yields 300 s, "00:30" yields
30 s, and "abc", "100:00", "05:60", "05" all fail — but "+05:00" also
yields 300 s. -/
theorem C3_amended_parse_contract :
    (∀ s : String, ∀ d : Int, parseDuration s = Option.some d ↔
      (amendedAccepts s = true ∧ d = amendedValue s)) ∧
    parseDuration "05:00" = Option.some 300000000000 ∧
    parseDuration "00:30" = Option.some 30000000000 ∧
    parseDuration "abc" = Option.none ∧
    parseDuration "100:00" = Option.none ∧
    parseDuration "05:60" = Option.none ∧
    parseDuration "05" = Option.none ∧
    parseDuration "+05:00" = Option.some 300000000000 := by
  refine ⟨fun s d => ?_, by decide, by decide, by decide, by decide, by decide,
    by decide, by decide⟩
  rw [parseDuration_eq_amended s]
  by_cases h : amendedAccepts s = true
  · simp [h, eq_comm]
  · simp [h]

/-- C7: the View countdown at startup for the argument "99:59" — the
largest accepted duration, within the claim's stated bounds.  The claim
(and the README, which advertises minutes 0-99) calls for the remaining
time as two-digit whole minutes, "99:59", but the code computes
`int(remaining.Minutes()) % 60` and renders "39:59": the spurious `% 60`
truncates all remainders of an hour or more, so the code diverges from the
documented display for every remaining time of at least 60 minutes. -/
theorem C7_minutes_mod60_divergence :
    parseDuration "99:59" = Option.some 5999000000000 ∧
      viewTimerString (initialModel 5999000000000) = "39:59" ∧
      specTimerString (initialModel 5999000000000) = "99:59" ∧
      viewTimerString (initialModel 5999000000000) ≠
        specTimerString (initialModel 5999000000000) := by
  refine ⟨?_, ?_, ?_, ?_⟩ <;> decide

lemma realTrunc_of_nonneg (r : ℝ) (h : 0 ≤ r) : realTrunc r = ⌊r⌋ := by
  unfold realTrunc
  rw [if_neg (not_lt.2 h)]

lemma drawAngle_nonneg (x y : Nat) : 0 ≤ drawAngle x y := by
  unfold drawAngle
  have harg := Complex.neg_pi_lt_arg (⟨(x : ℝ) - 14, (y : ℝ) - 6⟩ : ℂ)
  have hpi := Real.pi_pos
  split
  · linarith
  · next h => linarith [not_lt.1 h]

lemma drawAngle_lt_two_pi (x y : Nat) : drawAngle x y < 2 * Real.pi := by
  unfold drawAngle
  have harg := Complex.arg_le_pi (⟨(x : ℝ) - 14, (y : ℝ) - 6⟩ : ℂ)
  have hpi := Real.pi_pos
  split
  · next h => linarith
  · linarith

lemma drawSegment_nonneg (x y : Nat) : 0 ≤ drawSegment x y := by
  unfold drawSegment
  have h : 0 ≤ drawAngle x y / (2 * Real.pi) * 120 :=
    mul_nonneg (div_nonneg (drawAngle_nonneg x y) (by positivity)) (by norm_num)
  rw [realTrunc_of_nonneg _ h]
  exact Int.floor_nonneg.2 h

lemma drawSegment_lt_120 (x y : Nat) : drawSegment x y < 120 := by
  unfold drawSegment
  have h0 : 0 ≤ drawAngle x y / (2 * Real.pi) * 120 :=
    mul_nonneg (div_nonneg (drawAngle_nonneg x y) (by positivity)) (by norm_num)
  rw [realTrunc_of_nonneg _ h0]
  have h1 : drawAngle x y / (2 * Real.pi) < 1 :=
    (div_lt_one (by positivity)).2 (drawAngle_lt_two_pi x y)
  have h2 : drawAngle x y / (2 * Real.pi) * 120 < 120 := by nlinarith
  rw [Int.floor_lt]
  push_cast
  exact h2

lemma drawAngle_top : drawAngle 14 0 = 0 := by
  have h1 : Complex.arg ⟨((14 : Nat) : ℝ) - 14, ((0 : Nat) : ℝ) - 6⟩ = -(Real.pi / 2) := by
    apply Complex.arg_eq_neg_pi_div_two_iff.2
    constructor
    · norm_num
    · norm_num
  unfold drawAngle
  rw [h1]
  norm_num

lemma drawSegment_top : drawSegment 14 0 = 0 := by
  unfold drawSegment
  rw [drawAngle_top]
  rw [zero_div, zero_mul]
  rw [realTrunc_of_nonneg _ le_rfl]
  exact Int.floor_zero

/-- C8: in the drawCircle grid, a template '*' cell is rendered in the
elapsed color exactly when its segment index — its angle from the ring
center (14,6), zero at 12 o'clock, increasing clockwise, quantized into
120 segments — is below floor(p * 120); hence at p = 0 no ring cell is in
the elapsed color, at p = 1 every ring cell is, and the 12-o'clock cell
(column 14 of row 0) carries segment index 0, the mapping's zero
reference. -/
theorem C8_ring_progress_mapping :
    (∀ p : ℝ, 0 ≤ p → ∀ x y : Nat, ringCell x y = true →
      (drawElapsed p x y ↔ drawSegment x y < ⌊p * 120⌋)) ∧
    (∀ x y : Nat, ringCell x y = true → ¬ drawElapsed 0 x y) ∧
    (∀ x y : Nat, ringCell x y = true → drawElapsed 1 x y) ∧
    (ringCell 14 0 = true ∧ drawSegment 14 0 = 0) := by
  refine ⟨?_, ?_, ?_, by decide, drawSegment_top⟩
  · intro p hp x y _
    unfold drawElapsed
    rw [realTrunc_of_nonneg _ (mul_nonneg hp (by norm_num))]
  · intro x y _
    unfold drawElapsed
    rw [show ((0 : ℝ) * 120) = 0 by norm_num]
    rw [realTrunc_of_nonneg _ le_rfl, Int.floor_zero]
    exact not_lt.2 (drawSegment_nonneg x y)
  · intro x y _
    unfold drawElapsed
    rw [show ((1 : ℝ) * 120) = ((120 : ℤ) : ℝ) by norm_num]
    rw [realTrunc_of_nonneg _ (by norm_num), Int.floor_intCast]
    exact drawSegment_lt_120 x y

/-- C8 witness: the 12-o'clock ring cell at full and at zero progress. -/
theorem C8_ring_progress_mapping_witness :
    (drawElapsed 1 14 0 ↔ drawSegment 14 0 < ⌊(1 : ℝ) * 120⌋) ∧
      (¬ drawElapsed 0 14 0) ∧ drawElapsed 1 14 0 :=
  ⟨C8_ring_progress_mapping.1 1 zero_le_one 14 0 (by decide),
   C8_ring_progress_mapping.2.1 14 0 (by decide),
   C8_ring_progress_mapping.2.2.1 14 0 (by decide)⟩
